import Mathlib

/-!
Verification of the cheat-sheet command-line tool (files `main.go`, `cmd.go`).

The tool wraps the external `tldr` utility with a personal override store.
We embed the Go code shallowly:

* Pure data (Command, Config, Tldr, Executor) become Lean structures with
  the source's field and function names.
* Filesystem reads (`os.Open` + `Readdirnames` in `FindFileInDir`) are
  mediated by an environment `Env` mapping a directory name to either its
  list of entries or an error (`Err.notExist` when the directory itself
  does not exist, other constructors for the remaining failures).
* Subprocess invocations (`exec.Command(...).Run()` for tldr and the
  editor, `CopyFile`) are mediated by the same environment, which fixes
  the outcome of each spawn; the functions additionally return the ordered
  trace of the side-effecting actions they perform, so that claims about
  "which verb was invoked" and "no write happened" are statable.
* `CopyFile` is additionally modelled at byte level in a dedicated
  file-contents model, since one claim is about the copied bytes.
-/

/-- Errors surfaced by filesystem and subprocess operations.
`notExist` models Go `os.ErrNotExist`; `permission` and `ioOther` model
the remaining I/O failures; `exitCode c` models an `*exec.ExitError`
with exit code `c` propagated as an error; `startFailed` models a spawn
failure (a non-`ExitError` from `Run`). -/
inductive Err where
  | notExist
  | permission
  | ioOther
  | exitCode (c : Int)
  | startFailed
deriving DecidableEq, Repr

/-- Decidable equality of `Except` results, used to evaluate the models
on concrete inputs. -/
instance {ε α : Type} [DecidableEq ε] [DecidableEq α] : DecidableEq (Except ε α) :=
  fun x y =>
    match x, y with
    | .ok a, .ok b =>
      if h : a = b then isTrue (by rw [h]) else isFalse (by simp [h])
    | .error a, .error b =>
      if h : a = b then isTrue (by rw [h]) else isFalse (by simp [h])
    | .ok _, .error _ => isFalse (by simp)
    | .error _, .ok _ => isFalse (by simp)

/-- Outcome of running a subprocess, as seen by Go's `cmd.Run()`:
`success` is a nil error (exit code 0); `exitErr code` is an
`*exec.ExitError` carrying that exit code; `startErr` is any other
error (the process could not be started). -/
inductive RunResult where
  | success
  | exitErr (code : Int)
  | startErr
deriving DecidableEq, Repr

/-- Side-effecting actions performed by the executor, in order:
a `tldr` subprocess invocation with the given argument list, an editor
subprocess invocation on the given path, and a `CopyFile` call. -/
inductive Act where
  | tldrRun (args : List String)
  | runEditor (path : String)
  | copyFile (src dest : String)
deriving DecidableEq, Repr

/-- Tests whether an action is a tldr subprocess invocation. -/
def Act.isTldr : Act → Bool
  | .tldrRun _ => true
  | _ => false

/-- The environment fixing every external outcome of one run:
`listDir d` is the result of `os.Open(d)` followed by `Readdirnames(-1)`
(the entries of directory `d`, or an error); `tldrRun args` is the
outcome of spawning the tldr binary with `args`; `editorRun p` is the
error (if any) of spawning the editor on path `p`; `copyRun src dest`
is the error (if any) of `CopyFile(src, dest)`. -/
structure Env where
  listDir : String → Except Err (List String)
  tldrRun : List String → RunResult
  editorRun : String → Option Err
  copyRun : String → String → Option Err

/-- Model of Go `filepath.Join` on two already-clean non-empty segments:
they are joined with a single separator (`filepath.Join` additionally
cleans the result, which is the identity on such inputs). -/
def filepathJoin (a b : String) : String := a ++ "/" ++ b

/-- The command kinds of `cmd.go` (`CmdHelp`, `CmdVersion`, `CmdFind`,
`CmdEdit`, `CmdUpdate`). -/
inductive CmdType where
  | help
  | version
  | find
  | edit
  | update
deriving DecidableEq, Repr

/-- The parsed command (`type Command` in `cmd.go`): kind, single topic
argument `Arg`, and the flags map (modelled as an association list,
later bindings shadowing earlier ones as in a Go map update). -/
structure Command where
  Cmd : CmdType
  Arg : String
  Flags : List (String × String)
deriving DecidableEq, Repr

/-- Go `(c *Command) PrintLog()`: whether the `log` key is present in
the flags map. -/
def Command.PrintLog (c : Command) : Bool := (c.Flags.lookup "log").isSome

/-- Go `(c *Command) Filename()`: the single argument with the `.md`
extension appended. -/
def Command.Filename (c : Command) : String := c.Arg ++ ".md"

/-- Go `WithArg`: option setting the command's argument. -/
def WithArg (arg : String) (c : Command) : Command := { c with Arg := arg }

/-- Go `WithFlag`: option setting a key in the flags map (newest binding
first, as `List.lookup` returns the most recent one). -/
def WithFlag (name val : String) (c : Command) : Command :=
  { c with Flags := (name, val) :: c.Flags }

/-- Go `NewCommand`: builds a command of the given kind with empty
argument and flags, then applies the options in order. -/
def NewCommand (type_ : CmdType) (options : List (Command → Command)) : Command :=
  options.foldl (fun c o => o c) { Cmd := type_, Arg := "", Flags := [] }

/-- State of the parsed flag set consumed by `CreateCommand`: the five
registered flags of `main.go` (`-h`, `-v`, `-u`, `-e`, `-log`) and the
remaining positional arguments `fs.Args()`. A `Bool` flag's Go string
value is `"true"` exactly when the field is `true`; `editFlag` is the
string value of `-e` (empty when unset). -/
structure FlagState where
  helpFlag : Bool
  verFlag : Bool
  updateFlag : Bool
  editFlag : String
  logFlag : Bool
  args : List String
deriving DecidableEq, Repr

/-- The `withLog` closure in `CreateCommand`: when the `log` flag value is
not `"false"` (i.e. the boolean flag is set) the option records the flag,
otherwise it is the identity option. -/
def withLogOption (fs : FlagState) : Command → Command :=
  if fs.logFlag then WithFlag "log" "true" else id

/-- Go `CreateCommand (cmd.go lines 33-64)`. The Go code, when no flag
selects help, version, update or edit, evaluates `fs.Args()[0]`; on an
empty argument list this indexing panics with an index-out-of-range
runtime error, modelled here as `none`. -/
def CreateCommand (fs : FlagState) : Option Command :=
  if fs.helpFlag then some (NewCommand .help [withLogOption fs])
  else if fs.verFlag then some (NewCommand .version [withLogOption fs])
  else if fs.updateFlag then some (NewCommand .update [withLogOption fs])
  else if fs.editFlag ≠ "" then
    some (NewCommand .edit [WithArg fs.editFlag, withLogOption fs])
  else
    match fs.args with
    | [] => none
    | a :: _ => some (NewCommand .find [WithArg a, withLogOption fs])

/-- Go `type Config` (paths resolved once at startup). -/
structure Config where
  CheatSheetsDir : String
  TldrPath : String
  TldrCachePath : String
  EditorPath : String
deriving DecidableEq, Repr

/-- Go `type Tldr`: the external-tool adapter with its binary path, the
cache base path, and the ordered page-set category list. -/
structure Tldr where
  CmdPath : String
  CachePath : String
  pages : List String
deriving DecidableEq, Repr

/-- Go `NewTldr`: the page-set list is fixed to `common` then `linux`. -/
def NewTldr (cmdPath cachePath : String) : Tldr :=
  { CmdPath := cmdPath, CachePath := cachePath, pages := ["common", "linux"] }

/-- Go `FindFileInDir(filename, dirname) (cmd.go lines 343-361)`: open the
directory, read all entry names, return whether `filename` is among them;
any failure of the open or of the read is returned as the error. -/
def FindFileInDir (filename dirname : String) (env : Env) : Except Err Bool :=
  match env.listDir dirname with
  | .error e => .error e
  | .ok names => .ok (names.contains filename)

/-- Go `(t *Tldr) run(args...) (cmd.go lines 156-174)`: spawn the tldr
binary with `args` (recorded in the trace); a nil `Run` error is success,
an `*exec.ExitError` with exit code 3 is converted to success, any other
exit code or a spawn failure is returned as the error. -/
def Tldr.run (t : Tldr) (env : Env) (args : List String) :
    List Act × Except Err Unit :=
  ([Act.tldrRun args],
    match env.tldrRun args with
    | .success => .ok ()
    | .exitErr code => if code = 3 then .ok () else .error (.exitCode code)
    | .startErr => .error .startFailed)

/-- Go `(t *Tldr) Find(name)`: run with the topic name as the single
positional argument. -/
def Tldr.Find (t : Tldr) (name : String) (env : Env) :
    List Act × Except Err Unit :=
  t.run env [name]

/-- Go `(t *Tldr) Render(path)`: run with the render flag and the path. -/
def Tldr.Render (t : Tldr) (path : String) (env : Env) :
    List Act × Except Err Unit :=
  t.run env ["--render", path]

/-- Go `(t *Tldr) Update()`: run with the update flag. -/
def Tldr.Update (t : Tldr) (env : Env) : List Act × Except Err Unit :=
  t.run env ["--update"]

/-- The directory-scanning loop of `FindFileInCache`: propagate the first
lookup error, return the first directory containing the file, and the
empty string when the list is exhausted. -/
def findInDirs (filename : String) (env : Env) : List String → Except Err String
  | [] => .ok ""
  | dir :: rest =>
    match FindFileInDir filename dir env with
    | .error e => .error e
    | .ok true => .ok dir
    | .ok false => findInDirs filename env rest

/-- Go `(t *Tldr) FindFileInCache(filename) (cmd.go lines 189-207)`:
build `CachePath/page` for each configured page, then scan in order. -/
def Tldr.FindFileInCache (t : Tldr) (filename : String) (env : Env) :
    Except Err String :=
  findInDirs filename env (t.pages.map (fun page => filepathJoin t.CachePath page))

/-- Go `type Executor`: configuration plus the tldr adapter. -/
structure Executor where
  cfg : Config
  tldr : Tldr

/-- Go `NewExecutor`: the adapter is built from the configured tldr
binary path and cache path. -/
def NewExecutor (cfg : Config) : Executor :=
  { cfg := cfg, tldr := NewTldr cfg.TldrPath cfg.TldrCachePath }

/-- Go `(e *Executor) Find(cmd) (cmd.go lines 277-293)`: look the
filename up in the local store; propagate a lookup error; on a hit,
render the joined local path; on a miss, delegate to the external find
verb with the original argument. (The optional verbose log line has no
effect on the trace or result and is not modelled.) -/
def Executor.Find (e : Executor) (cmd : Command) (env : Env) :
    List Act × Except Err Unit :=
  match FindFileInDir cmd.Filename e.cfg.CheatSheetsDir env with
  | .error err => ([], .error err)
  | .ok hasFound =>
    if hasFound then
      e.tldr.Render (filepathJoin e.cfg.CheatSheetsDir cmd.Filename) env
    else
      e.tldr.Find cmd.Arg env

/-- Go `(e *Executor) editLocalCheatSheet(cmd) (cmd.go lines 325-337)`:
spawn the editor on the joined local path; if it fails return that
error, otherwise re-invoke `Find` with the same command. -/
def Executor.editLocalCheatSheet (e : Executor) (cmd : Command) (env : Env) :
    List Act × Except Err Unit :=
  let path := filepathJoin e.cfg.CheatSheetsDir cmd.Filename
  match env.editorRun path with
  | some err => ([Act.runEditor path], .error err)
  | none =>
    let rest := e.Find cmd env
    (Act.runEditor path :: rest.1, rest.2)

/-- Go `(e *Executor) Edit(cmd) (cmd.go lines 295-323)`: on a local hit,
edit directly; otherwise locate the file in the tldr cache; when a cache
directory is found, copy `dir/filename` into the local store, aborting
on a copy error; in every remaining case edit the local path. -/
def Executor.Edit (e : Executor) (cmd : Command) (env : Env) :
    List Act × Except Err Unit :=
  match FindFileInDir cmd.Filename e.cfg.CheatSheetsDir env with
  | .error err => ([], .error err)
  | .ok true => e.editLocalCheatSheet cmd env
  | .ok false =>
    match e.tldr.FindFileInCache cmd.Filename env with
    | .error err => ([], .error err)
    | .ok dirname =>
      if dirname ≠ "" then
        let src := filepathJoin dirname cmd.Filename
        let dest := filepathJoin e.cfg.CheatSheetsDir cmd.Filename
        match env.copyRun src dest with
        | some err => ([Act.copyFile src dest], .error err)
        | none =>
          let rest := e.editLocalCheatSheet cmd env
          (Act.copyFile src dest :: rest.1, rest.2)
      else
        e.editLocalCheatSheet cmd env

/-- Go `(e *Executor) Update(cmd)`: delegate to the update verb. -/
def Executor.Update (e : Executor) (cmd : Command) (env : Env) :
    List Act × Except Err Unit :=
  e.tldr.Update env

/-- Byte-level model for `CopyFile`: file contents indexed by full path
(`none` when the file does not exist / cannot be opened). -/
def FileMap : Type := String → Option (List Nat)

/-- Updates a single path of a file map. -/
def FileMap.set (fs : FileMap) (p : String) (v : List Nat) : FileMap :=
  fun q => if q = p then some v else fs q

/-- Go `CopyFile(src, dest) (cmd.go lines 363-378)` over the byte-level
model. `fs` gives the readable contents of every path; `createFails`
injects an `os.Create` failure; `interrupt = some k` injects an `io.Copy`
failure after `k` bytes were transferred (the destination is left
truncated to that prefix, as the code performs no rollback). The steps
follow the code's order: `os.Open(src)` fails when the path has no
contents; `os.Create(dest)` truncates the destination to empty
*before* `io.Copy` reads from the already-open source handle — so when
`dest = src` the truncation empties the very file being read and zero
bytes are transferred; finally the read bytes are written to the
destination. The result is the file map after the call together with
the returned error. -/
def CopyFile (src dest : String) (fs : FileMap) (createFails : String → Bool)
    (interrupt : Option Nat) : FileMap × Option Err :=
  match fs src with
  | none => (fs, some .notExist)
  | some _ =>
    if createFails dest then (fs, some .permission)
    else
      let fsCreated := fs.set dest []
      let srcBytes :=
        match fsCreated src with
        | some b => b
        | none => []
      match interrupt with
      | some k => (fsCreated.set dest (srcBytes.take k), some .ioOther)
      | none => (fsCreated.set dest srcBytes, none)

/-- Written from the spec's words, for comparison with `Command.Filename`:
the topic tokens joined by a hyphen with `.md` appended. -/
def specFilename (tokens : List String) : String :=
  String.intercalate "-" tokens ++ ".md"

/-- Written from the spec's words, for comparison with
`Tldr.FindFileInCache`: the first directory of the list whose listing
contains the filename, or the empty string when none does. -/
def specFirstCacheDir (filename : String) (env : Env) (dirs : List String) : String :=
  match dirs.find? (fun d =>
      match FindFileInDir filename d env with
      | .ok true => true
      | _ => false) with
  | some d => d
  | none => ""

/-- Written from the spec's words, for the Local Store Lookup claim: the
composed path `dirname/filename` does not exist, i.e. either the
directory itself does not exist, or it is listable and lacks the entry. -/
def pathDoesNotExist (env : Env) (dirname filename : String) : Prop :=
  env.listDir dirname = .error .notExist ∨
    ∃ l, env.listDir dirname = .ok l ∧ filename ∉ l

/-! ### Concrete fixtures used by the witnesses -/

/-- A configuration with distinct concrete paths. -/
def cfg0 : Config :=
  { CheatSheetsDir := "store", TldrPath := "tldr", TldrCachePath := "cache",
    EditorPath := "vim" }

/-- The executor built from `cfg0` as `NewExecutor` does. -/
def exec0 : Executor := NewExecutor cfg0

/-- A find command for the topic `git`. -/
def cmdGit : Command := { Cmd := .find, Arg := "git", Flags := [] }

/-- An environment whose directory listings are all `names` and whose
tldr subprocesses all end with outcome `r`. -/
def mkEnv (names : List String) (r : RunResult) : Env :=
  { listDir := fun _ => .ok names, tldrRun := fun _ => r,
    editorRun := fun _ => none, copyRun := fun _ _ => none }

/-! ### C1: Find serves the local override, else delegates -/

/-- C1: for a find command, when the local store directory contains the
computed filename, `Executor.Find` invokes exactly the external render
verb on the joined local path and never a find-verb invocation (a tldr
run with a single positional argument); when the local store lacks the
filename, it invokes exactly the external find verb with the original
topic argument and never a render-verb invocation. -/
theorem find_renders_local_else_delegates (e : Executor) (cmd : Command) (env : Env) :
    (FindFileInDir cmd.Filename e.cfg.CheatSheetsDir env = .ok true →
      (e.Find cmd env).1 =
        [Act.tldrRun ["--render", filepathJoin e.cfg.CheatSheetsDir cmd.Filename]] ∧
      ∀ name, Act.tldrRun [name] ∉ (e.Find cmd env).1) ∧
    (FindFileInDir cmd.Filename e.cfg.CheatSheetsDir env = .ok false →
      (e.Find cmd env).1 = [Act.tldrRun [cmd.Arg]] ∧
      ∀ path, Act.tldrRun ["--render", path] ∉ (e.Find cmd env).1) := by
  constructor
  · intro h
    simp only [Executor.Find, h, if_true]
    constructor
    · rfl
    · intro name hmem
      simp [Tldr.Render, Tldr.run] at hmem
  · intro h
    simp only [Executor.Find, h, if_false]
    constructor
    · rfl
    · intro path hmem
      simp [Tldr.Find, Tldr.run] at hmem

/-- Witness for C1: with the store listing containing `git.md`, Find
renders `store/git.md`; with an empty store listing, Find delegates with
the raw topic `git`. -/
theorem find_renders_local_else_delegates_witness :
    (exec0.Find cmdGit (mkEnv ["git.md"] .success)).1 =
      [Act.tldrRun ["--render", "store/git.md"]] ∧
    (exec0.Find cmdGit (mkEnv [] .success)).1 = [Act.tldrRun ["git"]] := by
  constructor
  · have h := (find_renders_local_else_delegates exec0 cmdGit
      (mkEnv ["git.md"] .success)).1 (by decide)
    exact h.1.trans (by decide)
  · have h := (find_renders_local_else_delegates exec0 cmdGit
      (mkEnv [] .success)).2 (by decide)
    exact h.1

/-! ### C2: exit code 3 of a streaming verb is not an error -/

/-- C2: for each streaming verb (find, render, update), a subprocess
outcome with exit code exactly 3 yields a success result; an exit with
any other non-zero code yields an error, as does a spawn failure. -/
theorem streaming_verbs_exit_code_semantics (t : Tldr) (env : Env)
    (name path : String) (c : Int) :
    (env.tldrRun [name] = .exitErr 3 → (t.Find name env).2 = .ok ()) ∧
    (env.tldrRun ["--render", path] = .exitErr 3 → (t.Render path env).2 = .ok ()) ∧
    (env.tldrRun ["--update"] = .exitErr 3 → (t.Update env).2 = .ok ()) ∧
    (c ≠ 0 → c ≠ 3 →
      (env.tldrRun [name] = .exitErr c → (t.Find name env).2 = .error (.exitCode c)) ∧
      (env.tldrRun ["--render", path] = .exitErr c →
        (t.Render path env).2 = .error (.exitCode c)) ∧
      (env.tldrRun ["--update"] = .exitErr c → (t.Update env).2 = .error (.exitCode c))) ∧
    (env.tldrRun [name] = .startErr → (t.Find name env).2 = .error .startFailed) ∧
    (env.tldrRun ["--render", path] = .startErr →
      (t.Render path env).2 = .error .startFailed) ∧
    (env.tldrRun ["--update"] = .startErr → (t.Update env).2 = .error .startFailed) := by
  refine ⟨?_, ?_, ?_, ?_, ?_, ?_, ?_⟩
  · intro h; simp [Tldr.Find, Tldr.run, h]
  · intro h; simp [Tldr.Render, Tldr.run, h]
  · intro h; simp [Tldr.Update, Tldr.run, h]
  · intro h0 h3
    refine ⟨?_, ?_, ?_⟩ <;>
      (intro h; simp [Tldr.Find, Tldr.Render, Tldr.Update, Tldr.run, h, h3])
  · intro h; simp [Tldr.Find, Tldr.run, h]
  · intro h; simp [Tldr.Render, Tldr.run, h]
  · intro h; simp [Tldr.Update, Tldr.run, h]

/-- Witness for C2: an exit-3 find succeeds, an exit-5 render errors, a
spawn-failed update errors. -/
theorem streaming_verbs_exit_code_semantics_witness :
    ((NewTldr "tldr" "cache").Find "git" (mkEnv [] (.exitErr 3))).2 = .ok () ∧
    ((NewTldr "tldr" "cache").Render "p" (mkEnv [] (.exitErr 5))).2 =
      .error (.exitCode 5) ∧
    ((NewTldr "tldr" "cache").Update (mkEnv [] .startErr)).2 = .error .startFailed := by
  refine ⟨?_, ?_, ?_⟩
  · exact (streaming_verbs_exit_code_semantics (NewTldr "tldr" "cache")
      (mkEnv [] (.exitErr 3)) "git" "p" 5).1 rfl
  · exact ((streaming_verbs_exit_code_semantics (NewTldr "tldr" "cache")
      (mkEnv [] (.exitErr 5)) "git" "p" 5).2.2.2.1 (by decide) (by decide)).2.1 rfl
  · exact (streaming_verbs_exit_code_semantics (NewTldr "tldr" "cache")
      (mkEnv [] .startErr) "git" "p" 5).2.2.2.2.2.2 rfl

/-! ### C10: Find performs no filesystem writes -/

/-- C10: every action in the trace of `Executor.Find` is a tldr
subprocess invocation: Find itself performs no `CopyFile` and spawns no
editor, so it never creates, modifies or deletes a file (its only
filesystem access is the read-only directory listing of
`FindFileInDir`). -/
theorem find_performs_no_writes (e : Executor) (cmd : Command) (env : Env) :
    (e.Find cmd env).1.all Act.isTldr = true := by
  unfold Executor.Find
  cases FindFileInDir cmd.Filename e.cfg.CheatSheetsDir env with
  | error err => rfl
  | ok hasFound => cases hasFound <;> rfl

/-! ### C4: the cache locator returns the first configured hit -/

/-- The scanning loop returns, when every lookup on the list succeeds,
exactly the first directory whose listing contains the filename (the
empty string when none does). -/
theorem findInDirs_eq_first_hit (filename : String) (env : Env) :
    ∀ dirs : List String,
      (∀ d ∈ dirs, ∃ b, FindFileInDir filename d env = .ok b) →
      findInDirs filename env dirs = .ok (specFirstCacheDir filename env dirs) := by
  intro dirs
  induction dirs with
  | nil => intro h; rfl
  | cons dir rest ih =>
    intro h
    obtain ⟨b, hb⟩ := h dir (List.mem_cons_self dir rest)
    have hrest := ih (fun d hd => h d (List.mem_cons_of_mem dir hd))
    cases b with
    | true => simp [findInDirs, specFirstCacheDir, List.find?, hb]
    | false =>
      simp only [findInDirs, specFirstCacheDir, List.find?, hb]
      exact hrest

/-- The scanning loop errors only when one of the directory lookups
errors. -/
theorem findInDirs_error_source (filename : String) (env : Env) :
    ∀ (dirs : List String) (e : Err),
      findInDirs filename env dirs = .error e →
      ∃ d ∈ dirs, FindFileInDir filename d env = .error e := by
  intro dirs
  induction dirs with
  | nil => intro e h; simp [findInDirs] at h
  | cons dir rest ih =>
    intro e h
    unfold findInDirs at h
    cases hfd : FindFileInDir filename dir env with
    | error e2 =>
      rw [hfd] at h
      refine ⟨dir, List.mem_cons_self dir rest, ?_⟩
      cases h; exact hfd
    | ok b =>
      rw [hfd] at h
      cases b with
      | true => cases h
      | false =>
        obtain ⟨d, hd, hfind⟩ := ih e h
        exact ⟨d, List.mem_cons_of_mem dir hd, hfind⟩

/-- C4: when every configured category directory can be listed,
`FindFileInCache` returns (with no error) the first category directory,
in configured order, containing the filename — the empty string when
none contains it; and whenever it returns an error, some category
directory's lookup returned that error. -/
theorem findFileInCache_first_configured (t : Tldr) (filename : String) (env : Env) :
    ((∀ d ∈ t.pages.map (fun page => filepathJoin t.CachePath page),
        ∃ b, FindFileInDir filename d env = .ok b) →
      t.FindFileInCache filename env =
        .ok (specFirstCacheDir filename env
          (t.pages.map (fun page => filepathJoin t.CachePath page)))) ∧
    (∀ e, t.FindFileInCache filename env = .error e →
      ∃ d ∈ t.pages.map (fun page => filepathJoin t.CachePath page),
        FindFileInDir filename d env = .error e) := by
  constructor
  · intro h
    exact findInDirs_eq_first_hit filename env _ h
  · intro e h
    exact findInDirs_error_source filename env _ e h

/-- An environment whose directory listing is empty for the local store
and contains `git.md` everywhere else (in particular in both cache
category directories); the copy outcome is fixed by `copyErr`. -/
def envCacheHit (copyErr : Option Err) : Env :=
  { listDir := fun d => if d = "store" then .ok [] else .ok ["git.md"],
    tldrRun := fun _ => .success,
    editorRun := fun _ => none,
    copyRun := fun _ _ => copyErr }

/-- Witness for C4: with both category listings containing `git.md`, the
locator returns the first configured category directory `cache/common`;
with all listings empty, it returns the empty string. -/
theorem findFileInCache_first_configured_witness :
    (NewTldr "tldr" "cache").FindFileInCache "git.md" (envCacheHit none) =
      .ok "cache/common" ∧
    (NewTldr "tldr" "cache").FindFileInCache "git.md" (mkEnv [] .success) =
      .ok "" := by
  constructor
  · have h := (findFileInCache_first_configured (NewTldr "tldr" "cache") "git.md"
      (envCacheHit none)).1 (by decide)
    exact h.trans (by decide)
  · have h := (findFileInCache_first_configured (NewTldr "tldr" "cache") "git.md"
      (mkEnv [] .success)).1 (by decide)
    exact h.trans (by decide)

/-! ### C3: a failed copy aborts Edit before the editor -/

/-- C3: for an edit command whose filename is absent from the local
store but located in a cache directory `d`, a failing `CopyFile` from
`d/filename` to `store/filename` makes `Edit` return exactly that copy
error with the copy as its only performed action — in particular the
editor is never spawned. -/
theorem edit_copy_error_aborts (e : Executor) (cmd : Command) (env : Env)
    (d : String) (err : Err) :
    FindFileInDir cmd.Filename e.cfg.CheatSheetsDir env = .ok false →
    e.tldr.FindFileInCache cmd.Filename env = .ok d →
    d ≠ "" →
    env.copyRun (filepathJoin d cmd.Filename)
        (filepathJoin e.cfg.CheatSheetsDir cmd.Filename) = some err →
    e.Edit cmd env =
      ([Act.copyFile (filepathJoin d cmd.Filename)
          (filepathJoin e.cfg.CheatSheetsDir cmd.Filename)], .error err) ∧
    ∀ p, Act.runEditor p ∉ (e.Edit cmd env).1 := by
  intro hstore hcache hne hcopy
  have hedit : e.Edit cmd env =
      ([Act.copyFile (filepathJoin d cmd.Filename)
          (filepathJoin e.cfg.CheatSheetsDir cmd.Filename)], .error err) := by
    simp only [Executor.Edit, hstore, hcache, if_pos hne, hcopy]
  refine ⟨hedit, ?_⟩
  intro p hp
  rw [hedit] at hp
  simp at hp

/-- Witness for C3: store listing empty, cache category `common` holds
`git.md`, the copy fails with a permission error; Edit returns the copy
error having performed only the copy. -/
theorem edit_copy_error_aborts_witness :
    exec0.Edit cmdGit (envCacheHit (some .permission)) =
      ([Act.copyFile "cache/common/git.md" "store/git.md"], .error .permission) := by
  have h := edit_copy_error_aborts exec0 cmdGit (envCacheHit (some .permission))
    "cache/common" .permission (by decide) (by decide) (by decide) (by decide)
  exact h.1.trans (by decide)

/-! ### C6: the editor result decides whether Find is re-invoked -/

/-- C6: when the editor subprocess on the local path succeeds,
`editLocalCheatSheet` re-invokes `Find` with the same command — its
trace is the editor spawn followed by exactly Find's actions and its
result is Find's result; when the editor subprocess fails, the editor
spawn is the only action, the editor's error is returned, and Find is
not re-invoked. -/
theorem editLocal_rerenders_after_editor (e : Executor) (cmd : Command) (env : Env) :
    (env.editorRun (filepathJoin e.cfg.CheatSheetsDir cmd.Filename) = none →
      e.editLocalCheatSheet cmd env =
        (Act.runEditor (filepathJoin e.cfg.CheatSheetsDir cmd.Filename) ::
            (e.Find cmd env).1,
          (e.Find cmd env).2)) ∧
    (∀ err, env.editorRun (filepathJoin e.cfg.CheatSheetsDir cmd.Filename) = some err →
      e.editLocalCheatSheet cmd env =
        ([Act.runEditor (filepathJoin e.cfg.CheatSheetsDir cmd.Filename)],
          .error err)) := by
  constructor
  · intro h
    simp only [Executor.editLocalCheatSheet, h]
  · intro err h
    simp only [Executor.editLocalCheatSheet, h]

/-- An environment with an empty store listing whose editor spawn fails
with an I/O error. -/
def envEditorFails : Env :=
  { listDir := fun _ => .ok [], tldrRun := fun _ => .success,
    editorRun := fun _ => some .ioOther, copyRun := fun _ _ => none }

/-- Witness for C6: with a succeeding editor, the trace is the editor
spawn followed by the re-invoked Find's delegation to the external find
verb; with a failing editor, the editor's error is returned and no tldr
action occurs. -/
theorem editLocal_rerenders_after_editor_witness :
    exec0.editLocalCheatSheet cmdGit (mkEnv [] .success) =
      ([Act.runEditor "store/git.md", Act.tldrRun ["git"]], .ok ()) ∧
    exec0.editLocalCheatSheet cmdGit envEditorFails =
      ([Act.runEditor "store/git.md"], .error .ioOther) := by
  constructor
  · have h := (editLocal_rerenders_after_editor exec0 cmdGit (mkEnv [] .success)).1 rfl
    exact h.trans (by decide)
  · have h := (editLocal_rerenders_after_editor exec0 cmdGit envEditorFails).2
      .ioOther rfl
    exact h.trans (by decide)

/-! ### C5: the derived filename uses a single token only -/

/-- Counterexample to C5 as stated: on the two positional topic tokens
`git` and `log` (no flags), `CreateCommand` keeps only the first token,
so the derived filename is `git.md` rather than the hyphen-join
`git-log.md`. -/
theorem filename_multi_token_counterexample :
    (CreateCommand
        { helpFlag := false, verFlag := false, updateFlag := false,
          editFlag := "", logFlag := false, args := ["git", "log"] }).map
      Command.Filename = some "git.md" ∧
    specFilename ["git", "log"] = "git-log.md" ∧
    ("git.md" : String) ≠ "git-log.md" := by
  refine ⟨rfl, by decide, by decide⟩

/-- C5 (amended): the command built from a non-empty positional token
list uses only the first token; the derived filename is that token with
`.md` appended, which coincides with the hyphen-join of a one-token
sequence. -/
theorem createCommand_single_token_filename (t : String) (rest : List String)
    (lg : Bool) :
    ∃ c, CreateCommand
        { helpFlag := false, verFlag := false, updateFlag := false,
          editFlag := "", logFlag := lg, args := t :: rest } = some c ∧
      c.Arg = t ∧ c.Filename = t ++ ".md" ∧ c.Filename = specFilename [t] := by
  cases lg <;> exact ⟨_, rfl, rfl, rfl, rfl⟩

/-! ### C7: the lookup errors when the directory itself is missing -/

/-- An environment in which no directory exists: every listing fails
with the not-exist error. -/
def envNoDirs : Env :=
  { listDir := fun _ => .error .notExist, tldrRun := fun _ => .success,
    editorRun := fun _ => none, copyRun := fun _ _ => none }

/-- Counterexample to C7 as stated: when the directory `store` itself
does not exist, the composed path `store/git.md` does not exist either,
yet `FindFileInDir` reports the not-exist condition as an error instead
of returning false without error. -/
theorem findFileInDir_missing_dir_counterexample :
    pathDoesNotExist envNoDirs "store" "git.md" ∧
    FindFileInDir "git.md" "store" envNoDirs ≠ .ok false ∧
    FindFileInDir "git.md" "store" envNoDirs = .error .notExist := by
  exact ⟨Or.inl rfl, by decide, rfl⟩

/-- C7 (amended): when the directory can be listed, absence of the
filename among its entries is reported as false with no error and
presence as true; every failure of the directory listing itself
(including the directory not existing) is returned as an error. -/
theorem findFileInDir_listable_semantics (env : Env) (dirname filename : String) :
    (∀ l, env.listDir dirname = .ok l → filename ∉ l →
      FindFileInDir filename dirname env = .ok false) ∧
    (∀ l, env.listDir dirname = .ok l → filename ∈ l →
      FindFileInDir filename dirname env = .ok true) ∧
    (∀ e, env.listDir dirname = .error e →
      FindFileInDir filename dirname env = .error e) := by
  refine ⟨?_, ?_, ?_⟩
  · intro l h hmem
    simp [FindFileInDir, h, List.contains, List.elem_eq_mem, hmem]
  · intro l h hmem
    simp [FindFileInDir, h, List.contains, List.elem_eq_mem, hmem]
  · intro e h
    simp [FindFileInDir, h]

/-- Witness for C7 (amended): a listable directory lacking `b.md`
yields false with no error, one containing `git.md` yields true, and a
missing directory yields the not-exist error. -/
theorem findFileInDir_listable_semantics_witness :
    FindFileInDir "b.md" "store" (mkEnv ["git.md"] .success) = .ok false ∧
    FindFileInDir "git.md" "store" (mkEnv ["git.md"] .success) = .ok true ∧
    FindFileInDir "git.md" "store" envNoDirs = .error .notExist := by
  refine ⟨?_, ?_, ?_⟩
  · exact (findFileInDir_listable_semantics (mkEnv ["git.md"] .success) "store"
      "b.md").1 ["git.md"] rfl (by decide)
  · exact (findFileInDir_listable_semantics (mkEnv ["git.md"] .success) "store"
      "git.md").2.1 ["git.md"] rfl (by decide)
  · exact (findFileInDir_listable_semantics envNoDirs "store" "git.md").2.2
      .notExist rfl

/-! ### C8: invocation with no arguments crashes command construction -/

/-- C8 (code bug): with no flags set and no positional arguments — the
state after flag parsing of an empty argument list — `CreateCommand`
reaches the indexing `fs.Args()[0]` on an empty slice, which in Go
panics with an index-out-of-range runtime error (modelled as `none`):
construction neither yields the help command nor a parse error. -/
theorem createCommand_no_args_crashes :
    CreateCommand
      { helpFlag := false, verFlag := false, updateFlag := false,
        editFlag := "", logFlag := false, args := [] } = none := rfl

/-! ### C9: a successful copy reproduces the source bytes -/

/-- A file map with a single three-byte file at path `a`. -/
def fsA : FileMap := fun p => if p = "a" then some [1, 2, 3] else none

/-- Counterexample to C9 as stated: a self-copy of the non-empty file
`a` returns success, yet afterwards the file is empty rather than equal
to its pre-call bytes — `os.Create` truncates the destination before
`io.Copy` reads from the already-open source handle, so zero bytes are
transferred. -/
theorem copyFile_self_copy_counterexample :
    (CopyFile "a" "a" fsA (fun _ => false) none).2 = none ∧
    fsA "a" = some [1, 2, 3] ∧
    (CopyFile "a" "a" fsA (fun _ => false) none).1 "a" = some [] ∧
    (CopyFile "a" "a" fsA (fun _ => false) none).1 "a" ≠ fsA "a" := by
  refine ⟨by decide, by decide, by decide, by decide⟩

/-- C9 (amended): whenever `CopyFile` returns no error and the
destination path differs from the source path, the destination's
contents equal the source's bytes exactly (and the source was
readable); a self-copy of a readable path with a creatable destination
and no interruption also returns success but leaves the file truncated
to empty; `CopyFile` returns an error when the source cannot be opened,
when the destination cannot be created, and when the byte stream is
interrupted. -/
theorem copyFile_reproduces_bytes (src dest : String) (fs : FileMap)
    (createFails : String → Bool) (interrupt : Option Nat) :
    (dest ≠ src →
      (CopyFile src dest fs createFails interrupt).2 = none →
      (CopyFile src dest fs createFails interrupt).1 dest = fs src ∧
      (fs src).isSome) ∧
    (fs src = none →
      (CopyFile src dest fs createFails interrupt).2 = some .notExist) ∧
    (∀ bytes, fs src = some bytes → createFails dest = true →
      (CopyFile src dest fs createFails interrupt).2 = some .permission) ∧
    (∀ bytes k, fs src = some bytes → createFails dest = false →
      interrupt = some k →
      (CopyFile src dest fs createFails interrupt).2 = some .ioOther) ∧
    (∀ bytes, fs src = some bytes → createFails src = false →
      (CopyFile src src fs createFails none).2 = none ∧
      (CopyFile src src fs createFails none).1 src = some []) := by
  refine ⟨?_, ?_, ?_, ?_, ?_⟩
  · intro hne h
    cases hsrc : fs src with
    | none => simp [CopyFile, hsrc] at h
    | some bytes =>
      cases hcf : createFails dest with
      | true => simp [CopyFile, hsrc, hcf] at h
      | false =>
        cases hint : interrupt with
        | some k => simp [CopyFile, hsrc, hcf, hint] at h
        | none =>
          have hne2 : ¬ src = dest := fun hh => hne hh.symm
          simp [CopyFile, FileMap.set, hsrc, hcf, hint, hne2]
  · intro h
    simp [CopyFile, h]
  · intro bytes h hcf
    simp [CopyFile, h, hcf]
  · intro bytes k h hcf hint
    simp [CopyFile, h, hcf, hint]
  · intro bytes h hcf
    simp [CopyFile, FileMap.set, h, hcf]

/-- Witness for C9 (amended): copying `a` to the distinct path `b` with
no injected failure makes the contents of `b` equal those of `a`;
copying from the missing path `z`, copying onto an uncreatable
destination, and an interrupted stream each return an error; the
self-copy of `a` succeeds and leaves `a` empty. -/
theorem copyFile_reproduces_bytes_witness :
    (CopyFile "a" "b" fsA (fun _ => false) none).1 "b" = fsA "a" ∧
    (CopyFile "z" "b" fsA (fun _ => false) none).2 = some .notExist ∧
    (CopyFile "a" "b" fsA (fun _ => true) none).2 = some .permission ∧
    (CopyFile "a" "b" fsA (fun _ => false) (some 1)).2 = some .ioOther ∧
    (CopyFile "a" "a" fsA (fun _ => false) none).1 "a" = some [] := by
  refine ⟨?_, ?_, ?_, ?_, ?_⟩
  · exact ((copyFile_reproduces_bytes "a" "b" fsA (fun _ => false) none).1
      (by decide) (by decide)).1
  · exact (copyFile_reproduces_bytes "z" "b" fsA (fun _ => false) none).2.1
      (by decide)
  · exact (copyFile_reproduces_bytes "a" "b" fsA (fun _ => true) none).2.2.1
      [1, 2, 3] (by decide) rfl
  · exact (copyFile_reproduces_bytes "a" "b" fsA (fun _ => false) (some 1)).2.2.2.1
      [1, 2, 3] 1 (by decide) rfl rfl
  · exact ((copyFile_reproduces_bytes "a" "a" fsA (fun _ => false) none).2.2.2.2
      [1, 2, 3] (by decide) rfl).2
